import Mathlib

/-!
Verification of the contest session engine of `contest-bitnp`.

The data model and the entity methods are embedded from
`contest/quiz/models.py`; the template tag from
`contest/quiz/templatetags/current_page.py`. The view-layer orchestration
(`select_questions`, the update/submit/auto-finalize views) and the
`constants` module are not part of the provided sources, so those operations
are modelled from the specification, as marked on each definition.
Timestamps are integers (e.g. epoch seconds), and database rows are plain
records with explicit ids.
-/

namespace Bitnp

/-- Question category, from `Question.Category` in `models.py`:
`RADIO = "R"` (single choice) and `BINARY = "B"` (true/false).
The constructor names are the stored one-letter values. -/
inductive Category where
  | R
  | B
deriving DecidableEq

/-- The categories, in declaration order. -/
def Category.all : List Category := [Category.R, Category.B]

/-- From `Question` in `models.py`: text content and category; `id` stands for
the database primary key. -/
structure Question where
  id : ℕ
  content : String
  category : Category
deriving DecidableEq

/-- From `Choice` in `models.py`: text content, the `correct` flag, and the
owning question's id. -/
structure Choice where
  id : ℕ
  content : String
  correct : Bool
  question : ℕ
deriving DecidableEq

/-- From `Response` in `models.py`: submission instant `submit_at` and the
owning student's id. -/
structure Response where
  submit_at : ℤ
  student : ℕ
deriving DecidableEq

/-- From `Answer` in `models.py`: owning response, question, and the chosen
choice (`null`, i.e. `none`, means unanswered). -/
structure Answer where
  response : Response
  question : Question
  choice : Option Choice
deriving DecidableEq

/-- From `DraftAnswer` in `models.py`: question and chosen choice (`none` =
unanswered). Membership in the owning draft's `answer_set` list replaces the
back reference to the draft. -/
structure DraftAnswer where
  question : Question
  choice : Option Choice
deriving DecidableEq

/-- From `DraftResponse` in `models.py`: owning student's id, deadline, and
its `answer_set` of draft answers. -/
structure DraftResponse where
  student : ℕ
  deadline : ℤ
  answer_set : List DraftAnswer
deriving DecidableEq

/-- The Django filter `choice__correct=True` used by `Response.score` keeps an
answer exactly when it has a chosen choice and that choice is marked correct;
a `null` choice never matches the filter. -/
def Answer.chosenCorrect (a : Answer) : Bool :=
  match a.choice with
  | none => false
  | some c => c.correct

/-- From `Response.score` in `models.py`: for every `(category, score)` item of
`constants.SCORE`, add `score` times the number of the response's answers with
that category and a correct chosen choice. The `constants` module is
deployment configuration outside the provided sources; per the spec its
`SCORE` maps every category to a non-negative weight, so it is the parameter
`weight : Category → ℕ`, and the response's `answer_set` is passed
explicitly. -/
def Response.score (weight : Category → ℕ) (answer_set : List Answer) : ℕ :=
  (Category.all.map (fun category =>
    weight category *
      (answer_set.filter (fun a =>
        decide (a.question.category = category) && a.chosenCorrect)).length)).sum

/-- The count the spec describes: the number of answers in a category whose
chosen choice is marked correct. -/
def correctCount (answer_set : List Answer) (category : Category) : ℕ :=
  (answer_set.filter (fun a =>
    decide (a.question.category = category) &&
      a.choice.any (fun c => c.correct))).length

/-- The error `random.sample` raises when the requested size exceeds the
population (`ValueError: Sample larger than population`), which the spec
names `InsufficientPopulationError`. -/
inductive InsufficientPopulationError where
  | sampleLargerThanPopulation
deriving DecidableEq

/-- Modelled from the spec: `random.sample(population, k)` as used by the
views module's `select_questions`, which is not among the provided sources
(only `tests.py` calls it). It yields `k` distinct elements of the
population, or fails when `k` exceeds the population size; the random draw
is modelled by taking the first `k` elements, one admissible outcome. -/
def sample (population : List Question) (k : ℕ) :
    Except InsufficientPopulationError (List Question) :=
  if k ≤ population.length then Except.ok (population.take k)
  else Except.error InsufficientPopulationError.sampleLargerThanPopulation

/-- Modelled from the spec: `select_questions` of the views module (not among
the provided sources). Per §4.1, for each category independently sample
`quota(category)` distinct questions from the bank's questions of that
category, and return the union; a failed sample propagates. -/
def select_questions (quota : Category → ℕ) (bank : List Question) :
    Except InsufficientPopulationError (List Question) :=
  match sample (bank.filter (fun q => decide (q.category = Category.R)))
      (quota Category.R) with
  | Except.error e => Except.error e
  | Except.ok r =>
    match sample (bank.filter (fun q => decide (q.category = Category.B)))
        (quota Category.B) with
    | Except.error e => Except.error e
    | Except.ok b => Except.ok (r ++ b)

/-- From `DraftAnswer.finalize` in `models.py`: build the formal `Answer`
keeping the question and choice, attached to the given response. -/
def DraftAnswer.finalize (a : DraftAnswer) (response : Response) : Answer :=
  { question := a.question, choice := a.choice, response := response }

/-- From `DraftResponse.finalize` in `models.py`: build a `Response` with the
given `submit_at` and the draft's student, together with one finalized
`Answer` per draft answer. It does not itself touch the database. -/
def DraftResponse.finalize (d : DraftResponse) (submit_at : ℤ) :
    Response × List Answer :=
  let response : Response := { submit_at := submit_at, student := d.student }
  (response, d.answer_set.map (fun a => a.finalize response))

/-- From `DraftResponse.outdated` in `models.py`: `timezone.now() >
self.deadline`, with the current instant passed explicitly. -/
def DraftResponse.outdated (d : DraftResponse) (now : ℤ) : Bool :=
  decide (now > d.deadline)

/-- Modelled from the spec: the database state of one student as the view
layer (not among the provided sources) manipulates it — at most one live
draft, plus the finalized responses, each with its answers. -/
structure DB where
  draft : Option DraftResponse
  responses : List (Response × List Answer)
deriving DecidableEq

/-- Modelled from the spec (§4.4): persisting a finalization — saving the new
`Response` with its `Answer`s and deleting the draft — happens as one atomic
unit, here a single total function on `DB`; a call when no draft exists
changes nothing. -/
def finalizeOp (db : DB) (submit_at : ℤ) : DB :=
  match db.draft with
  | none => db
  | some d => { draft := none, responses := db.responses ++ [d.finalize submit_at] }

/-- Modelled from the spec: the auto-finalization trigger of the views module
(not among the provided sources). On any access, an existing draft past its
deadline is finalized first; per the spec's design notes (§9) the source
passes the current wall-clock instant `now` — not the deadline — as
`submit_at`. -/
def autoFinalizeOnAccess (db : DB) (now : ℤ) : DB :=
  match db.draft with
  | none => db
  | some d => if d.outdated now then finalizeOp db now else db

/-- Failure classifications of the answer-update operation (§4.3, §7). -/
inductive UpdateError where
  | forbidden
  | unknownQuestion
  | unknownChoice
deriving DecidableEq

/-- Overwriting the choice of the draft answer targeting question `qid`,
leaving every other draft answer untouched (§4.3's update effect). -/
def DraftResponse.overwrite (d : DraftResponse) (qid : ℕ) (choice : Option Choice) :
    DraftResponse :=
  { d with answer_set := d.answer_set.map (fun a =>
      if a.question.id = qid then { a with choice := choice } else a) }

/-- Modelled from the spec: the answer-update view (not among the provided
sources), §4.3 — the draft must exist and not be expired (else a
Forbidden-classified failure), the question must be in the draft's set, and
the choice, when present, must belong to that exact question; on success only
the targeted draft answer's choice is overwritten. Malformed raw input is
rejected before this point and is not modelled. -/
def updateOp (db : DB) (now : ℤ) (qid : ℕ) (choice : Option Choice) :
    Except UpdateError DB :=
  match db.draft with
  | none => Except.error UpdateError.forbidden
  | some d =>
    if d.outdated now then Except.error UpdateError.forbidden
    else if d.answer_set.all (fun a => decide (a.question.id ≠ qid)) then
      Except.error UpdateError.unknownQuestion
    else
      match choice with
      | some c =>
        if c.question = qid then
          Except.ok { db with draft := some (d.overwrite qid (some c)) }
        else Except.error UpdateError.unknownChoice
      | none => Except.ok { db with draft := some (d.overwrite qid none) }

/-- Modelled from the spec: a failed update leaves the database unchanged; the
view persists only on success. -/
def applyUpdate (db : DB) (now : ℤ) (qid : ℕ) (choice : Option Choice) : DB :=
  match updateOp db now qid choice with
  | Except.ok db2 => db2
  | Except.error _ => db

/-- From `Student.n_left_tries` in `models.py`: `constants.MAX_TRIES
- self.response_set.count()`; its docstring notes drafts are not considered.
`MAX_TRIES` is deployment configuration, a parameter here, and Python
integers may go negative, so the result is an integer. -/
def n_left_tries (MAX_TRIES : ℕ) (db : DB) : ℤ :=
  (MAX_TRIES : ℤ) - db.responses.length

/-- The number of finalized responses the student owns. -/
def attemptsUsed (db : DB) : ℕ := db.responses.length

/-- Modelled from the spec (§4.2): the start gate of the views module (not
among the provided sources) admits a new attempt exactly when the remaining
try count is positive. -/
def canStart (MAX_TRIES : ℕ) (db : DB) : Bool :=
  decide (0 < n_left_tries MAX_TRIES db)

/-- Modelled from the spec: the externally triggered operations of the engine
(§4.3, §6) as a transition relation on one student's state. `start` requires
the try-limit gate and no existing draft and installs a freshly drawn draft
with every answer unanswered; `update` applies a successful answer update;
`submit` finalizes an existing draft at the current instant; `access` is any
draft-touching read, which auto-finalizes an expired draft; `discard` removes
a draft observed while the try limit is exhausted (§4.2). -/
inductive Step (MAX_TRIES : ℕ) : DB → DB → Prop where
  | start (db : DB) (d : DraftResponse) :
      db.draft = none → canStart MAX_TRIES db = true →
      (∀ a ∈ d.answer_set, a.choice = none) →
      Step MAX_TRIES db { db with draft := some d }
  | update (db db2 : DB) (now : ℤ) (qid : ℕ) (choice : Option Choice) :
      updateOp db now qid choice = Except.ok db2 →
      Step MAX_TRIES db db2
  | submit (db : DB) (d : DraftResponse) (now : ℤ) :
      db.draft = some d →
      Step MAX_TRIES db (finalizeOp db now)
  | access (db : DB) (now : ℤ) :
      Step MAX_TRIES db (autoFinalizeOnAccess db now)
  | discard (db : DB) (d : DraftResponse) :
      db.draft = some d → canStart MAX_TRIES db = false →
      Step MAX_TRIES db { db with draft := none }

/-- Modelled from the spec: a student begins with no draft and no responses;
the reachable states arise by the engine's operations. -/
inductive Reachable (MAX_TRIES : ℕ) : DB → Prop where
  | init : Reachable MAX_TRIES { draft := none, responses := [] }
  | step (db db2 : DB) :
      Reachable MAX_TRIES db → Step MAX_TRIES db db2 → Reachable MAX_TRIES db2

/-- Page metadata, from `PageMeta` as used by `constants.ROUTES`. -/
structure PageMeta where
  title : String
deriving DecidableEq

/-- The `ConstantsNamespace` as seen by `current_page_title`: its `ROUTES`
mapping from view name to page metadata, as an association list. -/
structure ConstantsNamespace where
  ROUTES : List (String × PageMeta)
deriving DecidableEq

/-- An HTTP status as used by `current_page_title`: numeric value and reason
phrase. -/
structure HTTPStatus where
  value : ℕ
  phrase : String
deriving DecidableEq

/-- The template context consulted by `current_page_title`:
`request_view_name` is the result of `resolve(request.path_info).view_name`,
with `none` for a `Resolver404`; `constants` and `response_status` are `none`
when the corresponding key is absent from the context. -/
structure Context where
  request_view_name : Option String
  constants : Option ConstantsNamespace
  response_status : Option HTTPStatus
deriving DecidableEq

/-- The default value of the `default` argument of `current_page_title`. -/
def current_page_title_default : String := ""

/-- From `current_page_title` in `templatetags/current_page.py`: when the
context holds `constants` and the request path resolves to a view name
present in `constants.ROUTES`, return that route's title; otherwise, when the
context holds `response_status`, return its value and phrase; otherwise
return `default`. A `Resolver404` is caught and falls through. -/
def current_page_title (context : Context) (default : String) : String :=
  let fallback : String :=
    match context.response_status with
    | some status => toString status.value ++ " " ++ status.phrase
    | none => default
  match context.constants with
  | none => fallback
  | some constants =>
    match context.request_view_name with
    | none => fallback
    | some view_name =>
      match constants.ROUTES.lookup view_name with
      | some page => page.title
      | none => fallback

/-- A concrete single-choice question, for concrete evaluations. -/
def qR1 : Question := { id := 1, content := "q1", category := Category.R }

/-- A second concrete single-choice question. -/
def qR2 : Question := { id := 2, content := "q2", category := Category.R }

/-- A concrete true/false question. -/
def qB1 : Question := { id := 3, content := "q3", category := Category.B }

/-- A correct choice of question 1. -/
def chGood : Choice := { id := 10, content := "yes", correct := true, question := 1 }

/-- An incorrect choice of question 1. -/
def chBad : Choice := { id := 11, content := "no", correct := false, question := 1 }

/-- A concrete finalized response row. -/
def respEx : Response := { submit_at := 100, student := 7 }

/-- An answer with a correct chosen choice. -/
def ansGood : Answer := { response := respEx, question := qR1, choice := some chGood }

/-- An unanswered answer. -/
def ansNone : Answer := { response := respEx, question := qR1, choice := none }

/-- Concrete per-category weights. -/
def wEx : Category → ℕ := fun c =>
  match c with
  | Category.R => 10
  | Category.B => 5

/-- A concrete question bank with two single-choice and one true/false
question. -/
def bankEx : List Question := [qR1, qR2, qB1]

/-- Concrete per-category quotas. -/
def quotaEx : Category → ℕ := fun c =>
  match c with
  | Category.R => 1
  | Category.B => 1

/-- A concrete draft: student 7, deadline at instant 10, one unanswered
question. -/
def draftEx : DraftResponse :=
  { student := 7, deadline := 10, answer_set := [{ question := qR1, choice := none }] }

/-- A concrete database state holding `draftEx` and no finalized responses. -/
def dbEx : DB := { draft := some draftEx, responses := [] }

/-- A concrete context whose path resolves to a configured route. -/
def ctxEx : Context :=
  { request_view_name := some "quiz:index",
    constants := some { ROUTES := [("quiz:index", { title := "Home" })] },
    response_status := some { value := 403, phrase := "Forbidden" } }

/-- The initial state of a student: no draft, no finalized responses. -/
def dbInit : DB := { draft := none, responses := [] }

/-- The inductive invariant behind the try-limit bound: the response count
respects the limit, and a live draft always leaves room for one more
response. -/
def limitInv (MAX_TRIES : ℕ) (db : DB) : Prop :=
  attemptsUsed db ≤ MAX_TRIES
    ∧ ∀ d, db.draft = some d → attemptsUsed db < MAX_TRIES

/-- C1: `Response.score` equals the sum over categories of the category's
weight times the number of the response's answers in that category whose
chosen choice is marked correct; an answer with no chosen choice or an
incorrectly chosen choice contributes zero; the score is never negative. -/
theorem C1_score_formula (weight : Category → ℕ) (answer_set : List Answer)
    (a : Answer) (h : a.chosenCorrect = false) :
    Response.score weight answer_set
      = (Category.all.map (fun c => weight c * correctCount answer_set c)).sum
    ∧ Response.score weight (a :: answer_set) = Response.score weight answer_set
    ∧ 0 ≤ Response.score weight answer_set := by
  have hpt : ∀ b : Answer, b.chosenCorrect = b.choice.any (fun c => c.correct) := by
    intro b
    cases hb : b.choice <;> simp [Answer.chosenCorrect, hb]
  refine ⟨?_, ?_, Nat.zero_le _⟩
  · simp only [Response.score, correctCount, hpt]
  · simp [Response.score, List.filter_cons, h]

/-- Witness for C1 at a concrete unanswered answer. -/
theorem C1_score_formula_witness :
    Response.score wEx [ansGood]
      = (Category.all.map (fun c => wEx c * correctCount [ansGood] c)).sum
    ∧ Response.score wEx (ansNone :: [ansGood]) = Response.score wEx [ansGood]
    ∧ 0 ≤ Response.score wEx [ansGood] :=
  C1_score_formula wEx [ansGood] ansNone (by decide)

/-- C3: `DraftResponse.finalize` produces a `Response` owned by the draft's
student with the given submission instant, together with exactly one `Answer`
per `DraftAnswer`, each carrying the same question and choice (including
`none` for unanswered questions) and attached to the new response. -/
theorem C3_finalize_content (d : DraftResponse) (t : ℤ) :
    (d.finalize t).1.student = d.student
    ∧ (d.finalize t).1.submit_at = t
    ∧ (d.finalize t).2.length = d.answer_set.length
    ∧ ∀ i : ℕ,
        (d.finalize t).2[i]?.map (fun a => (a.question, a.choice, a.response))
          = d.answer_set[i]?.map (fun a => (a.question, a.choice, (d.finalize t).1)) := by
  refine ⟨rfl, rfl, by simp [DraftResponse.finalize], ?_⟩
  intro i
  simp only [DraftResponse.finalize, List.getElem?_map]
  cases d.answer_set[i]? <;> rfl

/-- C7: `attemptsUsed` counts only finalized responses — it and
`n_left_tries` ignore the draft — and `canStart` holds exactly when
`attemptsUsed < MAX_TRIES`, equivalently when `n_left_tries` is positive. -/
theorem C7_try_limit (MAX_TRIES : ℕ) (db : DB) (x : Option DraftResponse) :
    attemptsUsed db = db.responses.length
    ∧ attemptsUsed { db with draft := x } = attemptsUsed db
    ∧ n_left_tries MAX_TRIES { db with draft := x } = n_left_tries MAX_TRIES db
    ∧ (canStart MAX_TRIES db = true ↔ attemptsUsed db < MAX_TRIES)
    ∧ (canStart MAX_TRIES db = true ↔ 0 < n_left_tries MAX_TRIES db) := by
  refine ⟨rfl, rfl, rfl, ?_, ?_⟩
  · simp only [canStart, n_left_tries, attemptsUsed, decide_eq_true_eq]
    omega
  · simp [canStart]

/-- C10: `current_page_title` resolves in priority order — a configured route
title when `constants` is present and the path resolves to a view name in
`ROUTES`; otherwise the response status's value and phrase when
`response_status` is present; otherwise the `default` argument, whose
declared default value is the empty string. An unresolved path never fails:
it falls through to the next case. -/
theorem C10_page_title (ctx : Context) (default : String) :
    (∀ c v page, ctx.constants = some c → ctx.request_view_name = some v →
        c.ROUTES.lookup v = some page →
        current_page_title ctx default = page.title)
    ∧ (∀ s, ctx.response_status = some s →
        (ctx.constants = none ∨ ctx.request_view_name = none ∨
          ∃ c v, ctx.constants = some c ∧ ctx.request_view_name = some v ∧
            c.ROUTES.lookup v = none) →
        current_page_title ctx default = toString s.value ++ " " ++ s.phrase)
    ∧ (ctx.response_status = none →
        (ctx.constants = none ∨ ctx.request_view_name = none ∨
          ∃ c v, ctx.constants = some c ∧ ctx.request_view_name = some v ∧
            c.ROUTES.lookup v = none) →
        current_page_title ctx default = default)
    ∧ current_page_title_default = "" := by
  refine ⟨?_, ?_, ?_, rfl⟩
  · intro c v page hc hv hp
    simp [current_page_title, hc, hv, hp]
  · intro s hs hcase
    rcases hcase with hc | hv | ⟨c, v, hc, hv, hl⟩
    · simp [current_page_title, hc, hs]
    · cases hc : ctx.constants <;> simp [current_page_title, hc, hv, hs]
    · simp [current_page_title, hc, hv, hl, hs]
  · intro hs hcase
    rcases hcase with hc | hv | ⟨c, v, hc, hv, hl⟩
    · simp [current_page_title, hc, hs]
    · cases hc : ctx.constants <;> simp [current_page_title, hc, hv, hs]
    · simp [current_page_title, hc, hv, hl, hs]

/-- Every question of a taken prefix of a category's pool has that
category. -/
lemma mem_take_filter_category (bank : List Question) (c : Category) (n : ℕ)
    (q : Question)
    (hq : q ∈ (bank.filter (fun q => decide (q.category = c))).take n) :
    q.category = c := by
  have hmem : q ∈ bank.filter (fun q => decide (q.category = c)) :=
    List.take_subset n _ hq
  exact of_decide_eq_true (List.mem_filter.mp hmem).2

/-- C2: for every quota the bank can satisfy, `select_questions` succeeds and
returns, for each category, exactly `quota(category)` distinct questions of
that category, with no duplicate questions within or across categories. -/
theorem C2_draw_quota (quota : Category → ℕ) (bank : List Question)
    (hnd : bank.Nodup)
    (h : ∀ c, quota c ≤ (bank.filter (fun q => decide (q.category = c))).length) :
    ∃ qs, select_questions quota bank = Except.ok qs
      ∧ (∀ c, (qs.filter (fun q => decide (q.category = c))).length = quota c)
      ∧ qs.Nodup := by
  have hR := h Category.R
  have hB := h Category.B
  refine ⟨(bank.filter (fun q => decide (q.category = Category.R))).take (quota Category.R)
      ++ (bank.filter (fun q => decide (q.category = Category.B))).take (quota Category.B),
    ?_, ?_, ?_⟩
  · simp [select_questions, sample, hR, hB]
  · intro c
    set tR := (bank.filter (fun q => decide (q.category = Category.R))).take
      (quota Category.R) with htR
    set tB := (bank.filter (fun q => decide (q.category = Category.B))).take
      (quota Category.B) with htB
    have lenR : tR.length = quota Category.R := by
      rw [htR, List.length_take]
      exact Nat.min_eq_left hR
    have lenB : tB.length = quota Category.B := by
      rw [htB, List.length_take]
      exact Nat.min_eq_left hB
    have memR : ∀ q ∈ tR, q.category = Category.R := fun q hq =>
      mem_take_filter_category bank Category.R (quota Category.R) q hq
    have memB : ∀ q ∈ tB, q.category = Category.B := fun q hq =>
      mem_take_filter_category bank Category.B (quota Category.B) q hq
    cases c with
    | R =>
      have e1 : tR.filter (fun q => decide (q.category = Category.R)) = tR :=
        List.filter_eq_self.mpr (fun q hq => decide_eq_true (memR q hq))
      have e2 : tB.filter (fun q => decide (q.category = Category.R)) = [] :=
        List.filter_eq_nil_iff.mpr (fun q hq => by simp [memB q hq])
      rw [List.filter_append, e1, e2, List.length_append, List.length_nil, lenR,
        Nat.add_zero]
    | B =>
      have e1 : tR.filter (fun q => decide (q.category = Category.B)) = [] :=
        List.filter_eq_nil_iff.mpr (fun q hq => by simp [memR q hq])
      have e2 : tB.filter (fun q => decide (q.category = Category.B)) = tB :=
        List.filter_eq_self.mpr (fun q hq => decide_eq_true (memB q hq))
      rw [List.filter_append, e1, e2, List.length_append, List.length_nil, lenB,
        Nat.zero_add]
  · rw [List.nodup_append]
    refine ⟨((List.take_sublist _ _).nodup (hnd.filter _)),
      ((List.take_sublist _ _).nodup (hnd.filter _)), ?_⟩
    intro q hqR hqB
    have h1 := mem_take_filter_category bank Category.R (quota Category.R) q hqR
    have h2 := mem_take_filter_category bank Category.B (quota Category.B) q hqB
    rw [h1] at h2
    exact Category.noConfusion h2

/-- Witness for C2 at a concrete bank and quota. -/
theorem C2_draw_quota_witness :
    ∃ qs, select_questions quotaEx bankEx = Except.ok qs
      ∧ (∀ c, (qs.filter (fun q => decide (q.category = c))).length = quotaEx c)
      ∧ qs.Nodup :=
  C2_draw_quota quotaEx bankEx (by decide) (by intro c; cases c <;> decide)

/-- C8: `select_questions` fails with `InsufficientPopulationError` exactly
when some category has fewer questions in the bank than its quota; in
particular, on an empty bank any positive quota makes it fail rather than
return a degraded question set. -/
theorem C8_draw_failure (quota : Category → ℕ) (bank : List Question) :
    ((∃ e, select_questions quota bank = Except.error e) ↔
      ∃ c, (bank.filter (fun q => decide (q.category = c))).length < quota c)
    ∧ (∀ c, 0 < quota c → ∃ e, select_questions quota [] = Except.error e) := by
  constructor
  · constructor
    · rintro ⟨e, he⟩
      by_cases hR : quota Category.R
          ≤ (bank.filter (fun q => decide (q.category = Category.R))).length
      · by_cases hB : quota Category.B
            ≤ (bank.filter (fun q => decide (q.category = Category.B))).length
        · simp [select_questions, sample, hR, hB] at he
        · exact ⟨Category.B, Nat.lt_of_not_le hB⟩
      · exact ⟨Category.R, Nat.lt_of_not_le hR⟩
    · rintro ⟨c, hc⟩
      refine ⟨InsufficientPopulationError.sampleLargerThanPopulation, ?_⟩
      cases c with
      | R => simp [select_questions, sample, Nat.not_le_of_lt hc]
      | B =>
        by_cases hR : quota Category.R
            ≤ (bank.filter (fun q => decide (q.category = Category.R))).length
        · simp [select_questions, sample, hR, Nat.not_le_of_lt hc]
        · simp [select_questions, sample, hR]
  · intro c hc
    refine ⟨InsufficientPopulationError.sampleLargerThanPopulation, ?_⟩
    cases c with
    | R => simp [select_questions, sample, Nat.not_le_of_lt hc]
    | B =>
      by_cases hR : quota Category.R ≤ 0
      · simp [select_questions, sample, hR, Nat.not_le_of_lt hc]
      · simp [select_questions, sample, hR]

/-- Witness for C8: an empty bank with a positive quota fails. -/
theorem C8_draw_failure_witness :
    ∃ e, select_questions quotaEx [] = Except.error e :=
  (C8_draw_failure quotaEx []).2 Category.R (by decide)

/-- Witness for C10 at a concrete context with a configured route. -/
theorem C10_page_title_witness : current_page_title ctxEx "fallback" = "Home" :=
  (C10_page_title ctxEx "fallback").1
    { ROUTES := [("quiz:index", { title := "Home" })] } "quiz:index"
    { title := "Home" } rfl rfl rfl

/-- C4: finalization is one atomic step on the database state — with a live
draft it yields a state where the draft is absent and the responses are
exactly the old ones plus one new response whose answers carry the same
question/choice pairs as the pre-finalize draft; with no draft it changes
nothing, so no state ever holds both the draft and the new response. -/
theorem C4_finalize_atomic (db : DB) (t : ℤ) :
    (∀ d, db.draft = some d →
        (finalizeOp db t).draft = none
        ∧ (finalizeOp db t).responses = db.responses ++ [d.finalize t]
        ∧ ∀ i : ℕ,
            (d.finalize t).2[i]?.map (fun a => (a.question, a.choice))
              = d.answer_set[i]?.map (fun a => (a.question, a.choice)))
    ∧ (db.draft = none → finalizeOp db t = db) := by
  constructor
  · intro d hd
    refine ⟨by simp [finalizeOp, hd], by simp [finalizeOp, hd], ?_⟩
    intro i
    simp only [DraftResponse.finalize, List.getElem?_map]
    cases d.answer_set[i]? <;> rfl
  · intro hd
    simp [finalizeOp, hd]

/-- Witness for C4 at a concrete state with a live draft. -/
theorem C4_finalize_atomic_witness :
    (finalizeOp dbEx 20).responses = dbEx.responses ++ [draftEx.finalize 20] :=
  ((C4_finalize_atomic dbEx 20).1 draftEx rfl).2.1

/-- C5 fails on the code: auto-finalizing the expired `draftEx` (deadline 10)
on an access at instant 15 records submission instant 15 — the detection
time — not the deadline 10. -/
theorem C5_counterexample :
    dbEx.draft = some draftEx
    ∧ draftEx.outdated 15 = true
    ∧ (autoFinalizeOnAccess dbEx 15).responses.map (fun p => p.1.submit_at) = [15]
    ∧ draftEx.deadline = 10
    ∧ (15 : ℤ) ≠ 10 := by decide

/-- C5 amended: a draft finalized by the auto-finalization trigger yields a
response whose submission timestamp is the wall-clock instant at which the
expiry was detected, which can be later than the deadline; the draft is
consumed. -/
theorem C5_amended_timestamp (db : DB) (d : DraftResponse) (now : ℤ)
    (hd : db.draft = some d) (h : d.deadline < now) :
    (autoFinalizeOnAccess db now).responses = db.responses ++ [d.finalize now]
    ∧ (d.finalize now).1.submit_at = now
    ∧ (autoFinalizeOnAccess db now).draft = none := by
  have ho : d.outdated now = true := by
    simp [DraftResponse.outdated]
    exact h
  refine ⟨?_, rfl, ?_⟩
  · simp [autoFinalizeOnAccess, hd, ho, finalizeOp]
  · simp [autoFinalizeOnAccess, hd, ho, finalizeOp]

/-- Witness for the amended C5 at the concrete expired draft. -/
theorem C5_amended_timestamp_witness :
    (autoFinalizeOnAccess dbEx 15).responses = dbEx.responses ++ [draftEx.finalize 15] :=
  (C5_amended_timestamp dbEx draftEx 15 rfl (by decide)).1

/-- C6: once `now` is strictly past the deadline, every update fails with the
Forbidden classification and leaves the state unchanged; expiry is exactly
`now > deadline`, so at the deadline instant itself the update is never
rejected as Forbidden. -/
theorem C6_expired_update (db : DB) (d : DraftResponse) (now : ℤ)
    (hd : db.draft = some d) (h : d.deadline < now) :
    (∀ qid choice, updateOp db now qid choice = Except.error UpdateError.forbidden)
    ∧ (∀ qid choice, applyUpdate db now qid choice = db)
    ∧ (∀ t : ℤ, d.outdated t = true ↔ d.deadline < t)
    ∧ (∀ qid choice,
        updateOp db d.deadline qid choice ≠ Except.error UpdateError.forbidden) := by
  have ho : d.outdated now = true := by
    simp [DraftResponse.outdated]
    exact h
  refine ⟨?_, ?_, ?_, ?_⟩
  · intro qid choice
    simp [updateOp, hd, ho]
  · intro qid choice
    simp [applyUpdate, updateOp, hd, ho]
  · intro t
    simp [DraftResponse.outdated]
  · intro qid choice hcontra
    have ho2 : d.outdated d.deadline = false := by
      simp [DraftResponse.outdated]
    unfold updateOp at hcontra
    rw [hd] at hcontra
    simp only [ho2, Bool.false_eq_true, if_false] at hcontra
    split at hcontra
    · simp at hcontra
    · split at hcontra
      · split at hcontra <;> simp at hcontra
      · simp at hcontra

/-- Witness for C6 at a concrete expired draft and concrete arguments. -/
theorem C6_expired_update_witness :
    updateOp dbEx 15 1 none = Except.error UpdateError.forbidden :=
  (C6_expired_update dbEx draftEx 15 rfl (by decide)).1 1 none

/-- A true `canStart` gate means the student is strictly under the limit. -/
lemma canStart_lt (M : ℕ) (db : DB) (h : canStart M db = true) :
    attemptsUsed db < M := by
  simp only [canStart, n_left_tries, attemptsUsed, decide_eq_true_eq] at h ⊢
  omega

/-- A successful update keeps the responses and keeps a draft on both
sides. -/
lemma updateOp_ok_shape (db db2 : DB) (now : ℤ) (qid : ℕ) (choice : Option Choice)
    (h : updateOp db now qid choice = Except.ok db2) :
    db2.responses = db.responses
    ∧ (∃ d, db.draft = some d) ∧ (∃ d2, db2.draft = some d2) := by
  cases hd : db.draft with
  | none => simp [updateOp, hd] at h
  | some d =>
    by_cases ho : d.outdated now = true
    · simp [updateOp, hd, ho] at h
    · by_cases hall : ∀ x ∈ d.answer_set, ¬x.question.id = qid
      · simp only [updateOp, hd, ho] at h
        simp only [Bool.false_eq_true, if_false] at h
        have hallb : (d.answer_set.all fun a => decide (a.question.id ≠ qid)) = true := by
          simpa using hall
        rw [if_pos hallb] at h
        cases h
      · cases choice with
        | some c =>
          by_cases hc : c.question = qid
          · simp [updateOp, hd, ho, hall, hc] at h
            subst h
            exact ⟨rfl, ⟨d, rfl⟩, ⟨_, rfl⟩⟩
          · simp [updateOp, hd, ho, hall, hc] at h
        | none =>
          simp [updateOp, hd, ho, hall] at h
          subst h
          exact ⟨rfl, ⟨d, rfl⟩, ⟨_, rfl⟩⟩

/-- Every engine operation preserves the try-limit invariant. -/
lemma step_preserves_limitInv (M : ℕ) (db db2 : DB)
    (hinv : limitInv M db) (s : Step M db db2) : limitInv M db2 := by
  cases s with
  | start d hnone hcan hunans =>
    exact ⟨hinv.1, fun d2 _ => canStart_lt M db hcan⟩
  | update db2 now qid choice hok =>
    obtain ⟨hresp, ⟨d, hd⟩, ⟨d2, hd2⟩⟩ := updateOp_ok_shape db db2 now qid choice hok
    have hlen : attemptsUsed db2 = attemptsUsed db := by
      simp [attemptsUsed, hresp]
    exact ⟨hlen ▸ hinv.1, fun d3 _ => hlen ▸ hinv.2 d hd⟩
  | submit d now hd =>
    have hlt := hinv.2 d hd
    constructor
    · simp [finalizeOp, hd, attemptsUsed] at hlt ⊢
      omega
    · intro d2 hd2
      simp [finalizeOp, hd] at hd2
  | access now =>
    cases hd : db.draft with
    | none =>
      have : autoFinalizeOnAccess db now = db := by
        simp [autoFinalizeOnAccess, hd]
      rw [this]
      exact hinv
    | some d =>
      by_cases ho : d.outdated now = true
      · have hlt := hinv.2 d hd
        have heq : autoFinalizeOnAccess db now = finalizeOp db now := by
          simp [autoFinalizeOnAccess, hd, ho]
        rw [heq]
        constructor
        · simp [finalizeOp, hd, attemptsUsed] at hlt ⊢
          omega
        · intro d2 hd2
          simp [finalizeOp, hd] at hd2
      · have heq : autoFinalizeOnAccess db now = db := by
          simp [autoFinalizeOnAccess, hd, ho]
        rw [heq]
        exact hinv
  | discard d hd hcan =>
    refine ⟨hinv.1, ?_⟩
    intro d2 hd2
    cases hd2

/-- Every reachable state satisfies the try-limit invariant. -/
lemma reachable_limitInv (M : ℕ) (db : DB) (h : Reachable M db) :
    limitInv M db := by
  induction h with
  | init => exact ⟨Nat.zero_le M, fun d hd => by cases hd⟩
  | step db db2 hr hs ih => exact step_preserves_limitInv M db db2 ih hs

/-- C9: in every state reachable by the engine's operations from the initial
state, the student's finalized response count lies between 0 and
`MAX_TRIES`. -/
theorem C9_response_count_bound (MAX_TRIES : ℕ) (db : DB)
    (h : Reachable MAX_TRIES db) :
    0 ≤ attemptsUsed db ∧ attemptsUsed db ≤ MAX_TRIES :=
  ⟨Nat.zero_le _, (reachable_limitInv MAX_TRIES db h).1⟩

/-- Witness for C9 at the initial state with a limit of 3. -/
theorem C9_response_count_bound_witness :
    0 ≤ attemptsUsed dbInit ∧ attemptsUsed dbInit ≤ 3 :=
  C9_response_count_bound 3 dbInit Reachable.init

end Bitnp
